import Mathlib

/-
Verification development for the legal-advisor analysis service.

Python strings are modelled as `List Char` (one entry per Unicode code
point, matching Python's `len` and indexing).  Wall-clock timestamps
(`datetime.now()`) are omitted from the embedded records: they carry no
information relevant to any property below.  External collaborators
(the language model, the search tool, the HTTP fetcher) are passed in as
function parameters, so "no external call is made" is expressed as
invariance of the result under the choice of collaborator.
-/

/-- Python strings are sequences of Unicode code points. -/
abbrev Str := List Char

/-- Whitespace recognised by Python's `str.strip` (ASCII subset; the
claims below only involve ASCII whitespace). -/
def isPySpace (c : Char) : Bool :=
  c == ' ' || c == '\t' || c == '\n' || c == '\r' ||
  c == Char.ofNat 11 || c == Char.ofNat 12

/-- Model of Python `s.strip()`: drop leading and trailing whitespace. -/
def pyStrip (s : Str) : Str :=
  ((s.dropWhile isPySpace).reverse.dropWhile isPySpace).reverse

/-- Model of Python's substring test `needle in hay`. -/
def containsSub (hay needle : Str) : Bool :=
  match hay with
  | [] => needle.isEmpty
  | _ :: t => needle.isPrefixOf hay || containsSub t needle

/-- Model of Python `path.split(sep)` for a one-character separator:
empty pieces are kept, and splitting the empty string yields one empty
piece. -/
def splitOnChar (sep : Char) : Str → List Str
  | [] => [[]]
  | c :: cs =>
    match splitOnChar sep cs with
    | [] => [[]]
    | p :: ps => if c == sep then [] :: p :: ps else (c :: p) :: ps

/-- The opening-brace character, `chr(123)`. -/
def braceChar : Char := Char.ofNat 123

/-- Model of Python `content.startswith(chr(123))`. -/
def startsBrace : Str → Bool
  | [] => false
  | c :: _ => c == braceChar

/-- The newline character appended after each accumulated content piece. -/
def nlChar : Str := ['\n']

/-- One chunk from `langraph_app.astream_log`, normalised the way
`extract_thinking_steps_from_log` normalises it (attribute access and
dict access both yield an op, a path, and a value; `value` holds the
Python `str()` rendering of the chunk's value, which is how the code
consumes it). Chunks of any other shape are skipped by the code and are
not modelled. -/
structure Chunk where
  op : Str
  path : Str
  value : Str
deriving DecidableEq, Repr

/-- The literal operation tag checked by the projector. -/
def addOp : Str := "add".data

/-- Path keywords from `['/streamed_output', '/llm', '/output']`. -/
def kwStreamed : Str := "/streamed_output".data
/-- Second path keyword. -/
def kwLlm : Str := "/llm".data
/-- Third path keyword. -/
def kwOutput : Str := "/output".data

/-- Model of `any(keyword in path for keyword in [...])`. -/
def pathHasKeyword (path : Str) : Bool :=
  containsSub path kwStreamed || containsSub path kwLlm || containsSub path kwOutput

/-- The `node_map` table of `extract_thinking_steps_from_log`
(api.py lines 186-194): node key, step name, description. -/
def nodeMap : List (Str × Str × Str) :=
  [ ("generate".data, ("🧠 Initial Legal Analysis".data,
      "Analyzing case facts and identifying key legal issues".data)),
    ("critique".data, ("🔍 Critical Review".data,
      "Reviewing analysis for gaps, inconsistencies, and areas needing research".data)),
    ("websearch".data, ("🔎 Legal Research".data,
      "Searching for relevant laws, precedents, and legal authorities".data)),
    ("ReviseAnswer".data, ("✅ Final Synthesis".data,
      "Incorporating research findings and finalizing legal opinion".data)),
    ("AnswerQuestion".data, ("📝 Answer Formulation".data,
      "Structuring the comprehensive legal analysis".data)),
    ("research".data, ("📚 Research Phase".data,
      "Conducting detailed legal research".data)),
    ("analyze".data, ("⚖️ Legal Analysis".data,
      "Applying legal principles to case facts".data)) ]

/-- Lookup in the node registry, `node_map.get(key)` without default. -/
def nodeMapLookup (n : Str) : Option (Str × Str) :=
  (nodeMap.find? (fun p => p.1 == n)).map (·.2)

/-- Membership test `potential_node in node_map`. -/
def isNodeKey (n : Str) : Bool := (nodeMapLookup n).isSome

/-- The default node name used when no path part resolves. -/
def analyzeKey : Str := "analyze".data

/-- Scan the split path parts: the first part containing a colon whose
text before the colon is a registry key wins (parts with a colon whose
prefix is unknown do not stop the scan, matching the `break` placement). -/
def findNodePart : List Str → Option Str
  | [] => none
  | p :: ps =>
    if p.contains ':' then
      if isNodeKey (p.takeWhile (fun c => c ≠ ':')) then
        some (p.takeWhile (fun c => c ≠ ':'))
      else findNodePart ps
    else findNodePart ps

/-- Resolve the symbolic node for a chunk path: split on the path
separator, scan for a registry-keyed `name:id` part, default to
`analyze`. -/
def resolveNode (path : Str) : Str :=
  (findNodePart (splitOnChar '/' path)).getD analyzeKey

/-- A user-facing thinking step (the `ThinkingStep` Pydantic model; the
wall-clock `timestamp` field is omitted). -/
structure ThinkingStep where
  step_number : Nat
  step_name : Str
  description : Str
  details : Str
deriving DecidableEq, Repr

/-- Projection state of `extract_thinking_steps_from_log`: the current
node, the accumulated content, the step counter, and the flushed steps. -/
structure PState where
  currentNode : Option Str
  accum : Str
  counter : Nat
  steps : List ThinkingStep
deriving DecidableEq, Repr

/-- The ellipsis marker appended on truncation. -/
def ellipsis : Str := "...".data

/-- Details truncation: at most 1000 characters, with an ellipsis marker
beyond the cap (`accumulated_content[:1000] + "..."`). -/
def truncateDetails (s : Str) : Str :=
  if s.length > 1000 then s.take 1000 ++ ellipsis else s

/-- Render the current node the way an f-string would (for the
mid-stream fallback `f"Legal Step {current_node}"`). -/
def fmtOptNode : Option Str → Str
  | some n => n
  | none => "None".data

/-- Step metadata used when flushing mid-stream:
`node_map.get(current_node, (f"Legal Step ...", "Processing legal analysis"))`. -/
def midMeta (o : Option Str) : Str × Str :=
  match o with
  | some n => (nodeMapLookup n).getD
      (("Legal Step ".data ++ n), "Processing legal analysis".data)
  | none => (("Legal Step ".data ++ fmtOptNode none), "Processing legal analysis".data)

/-- Step metadata used when flushing at end of stream:
`node_map.get(current_node, ("Final Analysis", "Completing legal analysis"))`. -/
def finalMeta (o : Option Str) : Str × Str :=
  match o with
  | some n => (nodeMapLookup n).getD
      ("Final Analysis".data, "Completing legal analysis".data)
  | none => ("Final Analysis".data, "Completing legal analysis".data)

/-- Flush the accumulator into a step using the mid-stream metadata,
increment the counter, reset the accumulator. -/
def flushStep (st : PState) : PState :=
  { currentNode := st.currentNode
    accum := []
    counter := st.counter + 1
    steps := st.steps ++
      [⟨st.counter, (midMeta st.currentNode).1, (midMeta st.currentNode).2,
        truncateDetails st.accum⟩] }

/-- Process one chunk of the stream log, mirroring the loop body of
`extract_thinking_steps_from_log`: only `add` operations on
streamed-output paths with content that is non-empty, longer than 20
characters and not a brace-opened rendering contribute; a node change
with a non-empty accumulator flushes the previous step first. -/
def processChunk (st : PState) (c : Chunk) : PState :=
  if c.op = addOp ∧ pathHasKeyword c.path = true then
    if pyStrip c.value ≠ [] ∧ 20 < (pyStrip c.value).length ∧
        startsBrace (pyStrip c.value) = false then
      let node := resolveNode c.path
      let st1 := if st.currentNode ≠ some node ∧ st.accum ≠ [] then flushStep st else st
      { currentNode := some node
        accum := st1.accum ++ pyStrip c.value ++ nlChar
        counter := st1.counter
        steps := st1.steps }
    else st
  else st

/-- Initial projection state. -/
def initPState : PState := ⟨none, [], 1, []⟩

/-- Truthiness of `current_node` at the final flush (`None` and the
empty string are both falsy in Python). -/
def nodeTruthy : Option Str → Bool
  | none => false
  | some n => !n.isEmpty

/-- Steps projected from the raw chunk list, before the default
substitution: fold the loop body, then flush any remaining accumulator
with the end-of-stream metadata. -/
def projectedSteps (chunks : List Chunk) : List ThinkingStep :=
  let st := chunks.foldl processChunk initPState
  if nodeTruthy st.currentNode = true ∧ st.accum ≠ [] then
    st.steps ++
      [⟨st.counter, (finalMeta st.currentNode).1, (finalMeta st.currentNode).2,
        truncateDetails st.accum⟩]
  else st.steps

/-- The fixed default step sequence substituted when extraction produces
nothing (api.py lines 271-308; timestamps omitted). -/
def defaultSteps : List ThinkingStep :=
  [ ⟨1, "🧠 Case Analysis Initiated".data,
      "Beginning comprehensive legal analysis of the submitted case".data,
      "Parsing case description, identifying parties, key facts, potential legal issues, and applicable areas of law. Determining the scope and complexity of the legal matter.".data⟩,
    ⟨2, "⚖️ Legal Framework Assessment".data,
      "Evaluating applicable laws, regulations, and legal principles".data,
      "Identifying relevant statutes, regulations, case law, and legal doctrines that apply to this matter. Analyzing jurisdictional issues and procedural requirements.".data⟩,
    ⟨3, "🔍 Research and Precedent Analysis".data,
      "Conducting comprehensive legal research for supporting authorities".data,
      "Searching legal databases for relevant case law, statutory provisions, regulatory guidance, and scholarly commentary. Analyzing precedents and their applicability to the current case.".data⟩,
    ⟨4, "📋 Comprehensive Legal Analysis".data,
      "Synthesizing research findings with case facts".data,
      "Applying legal principles to case facts, analyzing strengths and weaknesses, identifying potential defenses or counterarguments, and formulating legal strategy recommendations.".data⟩,
    ⟨5, "✅ Final Opinion and Recommendations".data,
      "Finalizing legal assessment and strategic recommendations".data,
      "Preparing comprehensive legal opinion with clear conclusions, risk assessment, recommended actions, and next steps for the client.".data⟩ ]

/-- The trace projector `extract_thinking_steps_from_log`: project the
chunk list into steps, substituting the fixed defaults when nothing was
extracted. -/
def extract_thinking_steps_from_log (chunks : List Chunk) : List ThinkingStep :=
  if projectedSteps chunks = [] then defaultSteps else projectedSteps chunks

/-- C3: the projector returns the fixed non-empty default sequence for
an empty event sequence, and for any event sequence from which no step
is extracted; it never returns an empty list. -/
theorem C3_default_steps (chunks : List Chunk) :
    extract_thinking_steps_from_log chunks ≠ [] ∧ defaultSteps ≠ [] ∧
    (projectedSteps chunks = [] → extract_thinking_steps_from_log chunks = defaultSteps) := by
  refine ⟨?_, by decide, ?_⟩
  · unfold extract_thinking_steps_from_log
    split
    · decide
    · assumption
  · intro h
    unfold extract_thinking_steps_from_log
    rw [if_pos h]

/-- Witness for C3 at the empty event sequence. -/
theorem C3_default_steps_witness :
    extract_thinking_steps_from_log ([] : List Chunk) ≠ [] ∧
    extract_thinking_steps_from_log ([] : List Chunk) = defaultSteps :=
  ⟨(C3_default_steps []).1, (C3_default_steps []).2.2 (by decide)⟩

/-- A node name found by the path scan is a registry key. -/
theorem findNodePart_isKey (ps : List Str) (s : Str) (h : findNodePart ps = some s) :
    isNodeKey s = true := by
  induction ps with
  | nil => simp [findNodePart] at h
  | cons p ps ih =>
    unfold findNodePart at h
    split at h
    · split at h
      · rename_i hk
        injection h with h
        subst h
        exact hk
      · exact ih h
    · exact ih h

/-- Registry keys are non-empty strings. -/
theorem isNodeKey_ne_nil (s : Str) (h : isNodeKey s = true) : s ≠ [] := by
  intro he
  subst he
  have : isNodeKey ([] : Str) = false := by decide
  rw [this] at h
  exact Bool.false_ne_true h

/-- The resolved node name is always a non-empty string. -/
theorem resolveNode_ne_nil (p : Str) : resolveNode p ≠ [] := by
  unfold resolveNode
  cases hf : findNodePart (splitOnChar '/' p) with
  | none => simp [analyzeKey]
  | some s => simpa using isNodeKey_ne_nil s (findNodePart_isKey _ s hf)

/-- Equation lemma: a content-bearing chunk (an `add` on a streamed
path, with stripped value passing the filter) updates the state by an
optional flush followed by accumulation under its resolved node. -/
theorem processChunk_content (st : PState) (c : Chunk) (n t : Str)
    (hop : c.op = addOp) (hpk : pathHasKeyword c.path = true)
    (hrn : resolveNode c.path = n) (ht : pyStrip c.value = t)
    (hlen : 20 < t.length) (hbr : startsBrace t = false) :
    processChunk st c =
      (if st.currentNode ≠ some n ∧ st.accum ≠ [] then
        { currentNode := some n
          accum := t ++ nlChar
          counter := st.counter + 1
          steps := st.steps ++
            [⟨st.counter, (midMeta st.currentNode).1, (midMeta st.currentNode).2,
              truncateDetails st.accum⟩] }
      else
        { currentNode := some n
          accum := st.accum ++ t ++ nlChar
          counter := st.counter
          steps := st.steps }) := by
  have hne : t ≠ [] := by
    intro h
    rw [h] at hlen
    simp at hlen
  unfold processChunk
  rw [if_pos ⟨hop, hpk⟩, ht, if_pos ⟨hne, hlen, hbr⟩, hrn]
  dsimp only
  by_cases h : st.currentNode ≠ some n ∧ st.accum ≠ []
  · simp only [if_pos h, flushStep, List.nil_append]
  · simp only [if_neg h]

/-- Appending a content piece and the newline never leaves the
accumulator empty. -/
theorem accum_append_ne_nil (a t : Str) : a ++ t ++ nlChar ≠ [] := by
  simp [nlChar]


/-- C2 (amended): for node A events c1-c3 then node B events c4-c5
(each an `add` on a streamed-output path whose stripped value passes the
content filter, A and B distinct registry nodes), the projector returns
exactly two steps, numbered 1 and 2, carrying the registry metadata of
A and B; each step's details are the event texts each followed by a
newline, truncated to 1000 characters with an ellipsis when longer. -/
theorem C2_two_steps_amended
    (c1 c2 c3 c4 c5 : Chunk) (a b na da nb db : Str) (t1 t2 t3 t4 t5 : Str)
    (hop1 : c1.op = addOp) (hop2 : c2.op = addOp) (hop3 : c3.op = addOp)
    (hop4 : c4.op = addOp) (hop5 : c5.op = addOp)
    (hpk1 : pathHasKeyword c1.path = true) (hpk2 : pathHasKeyword c2.path = true)
    (hpk3 : pathHasKeyword c3.path = true) (hpk4 : pathHasKeyword c4.path = true)
    (hpk5 : pathHasKeyword c5.path = true)
    (hrn1 : resolveNode c1.path = a) (hrn2 : resolveNode c2.path = a)
    (hrn3 : resolveNode c3.path = a) (hrn4 : resolveNode c4.path = b)
    (hrn5 : resolveNode c5.path = b)
    (ht1 : pyStrip c1.value = t1) (ht2 : pyStrip c2.value = t2)
    (ht3 : pyStrip c3.value = t3) (ht4 : pyStrip c4.value = t4)
    (ht5 : pyStrip c5.value = t5)
    (hlen1 : 20 < t1.length) (hlen2 : 20 < t2.length) (hlen3 : 20 < t3.length)
    (hlen4 : 20 < t4.length) (hlen5 : 20 < t5.length)
    (hbr1 : startsBrace t1 = false) (hbr2 : startsBrace t2 = false)
    (hbr3 : startsBrace t3 = false) (hbr4 : startsBrace t4 = false)
    (hbr5 : startsBrace t5 = false)
    (hab : a ≠ b)
    (hma : nodeMapLookup a = some (na, da))
    (hmb : nodeMapLookup b = some (nb, db)) :
    extract_thinking_steps_from_log [c1, c2, c3, c4, c5] =
      [⟨1, na, da, truncateDetails (t1 ++ nlChar ++ t2 ++ nlChar ++ t3 ++ nlChar)⟩,
       ⟨2, nb, db, truncateDetails (t4 ++ nlChar ++ t5 ++ nlChar)⟩] := by
  have hbkey : isNodeKey b = true := by
    unfold isNodeKey
    rw [hmb]
    rfl
  have hbne : b ≠ [] := isNodeKey_ne_nil b hbkey
  have e1 : processChunk initPState c1 = ⟨some a, t1 ++ nlChar, 1, []⟩ := by
    rw [processChunk_content initPState c1 a t1 hop1 hpk1 hrn1 ht1 hlen1 hbr1,
       if_neg (by simp [initPState])]
    simp [initPState]
  have e2 : processChunk ⟨some a, t1 ++ nlChar, 1, []⟩ c2 =
      ⟨some a, t1 ++ nlChar ++ (t2 ++ nlChar), 1, []⟩ := by
    rw [processChunk_content _ c2 a t2 hop2 hpk2 hrn2 ht2 hlen2 hbr2,
       if_neg (by simp)]
    simp
  have e3 : processChunk ⟨some a, t1 ++ nlChar ++ (t2 ++ nlChar), 1, []⟩ c3 =
      ⟨some a, t1 ++ nlChar ++ (t2 ++ nlChar) ++ (t3 ++ nlChar), 1, []⟩ := by
    rw [processChunk_content _ c3 a t3 hop3 hpk3 hrn3 ht3 hlen3 hbr3,
       if_neg (by simp)]
    simp
  have e4 : processChunk ⟨some a, t1 ++ nlChar ++ (t2 ++ nlChar) ++ (t3 ++ nlChar), 1, []⟩ c4 =
      ⟨some b, t4 ++ nlChar, 2,
        [⟨1, na, da, truncateDetails (t1 ++ nlChar ++ (t2 ++ nlChar) ++ (t3 ++ nlChar))⟩]⟩ := by
    rw [processChunk_content _ c4 b t4 hop4 hpk4 hrn4 ht4 hlen4 hbr4,
       if_pos (by refine ⟨by simp [hab], ?_⟩; simp [nlChar])]
    simp [midMeta, hma]
  have e5 : processChunk ⟨some b, t4 ++ nlChar, 2,
        [⟨1, na, da, truncateDetails (t1 ++ nlChar ++ (t2 ++ nlChar) ++ (t3 ++ nlChar))⟩]⟩ c5 =
      ⟨some b, t4 ++ nlChar ++ (t5 ++ nlChar), 2,
        [⟨1, na, da, truncateDetails (t1 ++ nlChar ++ (t2 ++ nlChar) ++ (t3 ++ nlChar))⟩]⟩ := by
    rw [processChunk_content _ c5 b t5 hop5 hpk5 hrn5 ht5 hlen5 hbr5,
       if_neg (by simp)]
    simp
  have hfold : [c1, c2, c3, c4, c5].foldl processChunk initPState =
      ⟨some b, t4 ++ nlChar ++ (t5 ++ nlChar), 2,
        [⟨1, na, da, truncateDetails (t1 ++ nlChar ++ (t2 ++ nlChar) ++ (t3 ++ nlChar))⟩]⟩ := by
    simp only [List.foldl, e1, e2, e3, e4, e5]
  have hproj : projectedSteps [c1, c2, c3, c4, c5] =
      [⟨1, na, da, truncateDetails (t1 ++ nlChar ++ (t2 ++ nlChar) ++ (t3 ++ nlChar))⟩,
       ⟨2, nb, db, truncateDetails (t4 ++ nlChar ++ (t5 ++ nlChar))⟩] := by
    unfold projectedSteps
    rw [hfold]
    rw [if_pos (by refine ⟨by simp [nodeTruthy, hbne], ?_⟩; simp [nlChar])]
    simp [finalMeta, hmb]
  unfold extract_thinking_steps_from_log
  rw [hproj]
  simp only [List.append_assoc]
  rw [if_neg (by simp)]

/-- Concrete path routed through node `generate`. -/
def cxPathA : Str := "/logs/generate:0/streamed_output/-".data

/-- Concrete path routed through node `critique`. -/
def cxPathB : Str := "/logs/critique:0/streamed_output/-".data

/-- First content text for node A (21 characters, passes the filter). -/
def cxT1 : Str := "aaaaaaaaaaaaaaaaaaaaa".data
/-- Second content text for node A. -/
def cxT2 : Str := "bbbbbbbbbbbbbbbbbbbbb".data
/-- Third content text for node A. -/
def cxT3 : Str := "ccccccccccccccccccccc".data
/-- First content text for node B. -/
def cxT4 : Str := "ddddddddddddddddddddd".data
/-- Second content text for node B. -/
def cxT5 : Str := "eeeeeeeeeeeeeeeeeeeee".data

/-- Concrete node-A content chunks. -/
def cxA1 : Chunk := ⟨addOp, cxPathA, cxT1⟩
/-- Second node-A chunk. -/
def cxA2 : Chunk := ⟨addOp, cxPathA, cxT2⟩
/-- Third node-A chunk. -/
def cxA3 : Chunk := ⟨addOp, cxPathA, cxT3⟩
/-- First node-B chunk. -/
def cxB1 : Chunk := ⟨addOp, cxPathB, cxT4⟩
/-- Second node-B chunk. -/
def cxB2 : Chunk := ⟨addOp, cxPathB, cxT5⟩

/-- C2 counterexample: on 3 node-A content events followed by 2 node-B
content events, the emitted details are not the plain concatenations of
the texts (the code joins each text with a trailing newline), so the
claim as stated fails at this input. -/
theorem C2_counterexample :
    (extract_thinking_steps_from_log [cxA1, cxA2, cxA3, cxB1, cxB2]).map
        ThinkingStep.details ≠
      [cxT1 ++ cxT2 ++ cxT3, cxT4 ++ cxT5] := by
  decide

/-- Witness for the amended C2 at the concrete five-chunk stream. -/
theorem C2_two_steps_amended_witness :
    extract_thinking_steps_from_log [cxA1, cxA2, cxA3, cxB1, cxB2] =
      [⟨1, ("🧠 Initial Legal Analysis".data),
          ("Analyzing case facts and identifying key legal issues".data),
          truncateDetails (cxT1 ++ nlChar ++ cxT2 ++ nlChar ++ cxT3 ++ nlChar)⟩,
       ⟨2, ("🔍 Critical Review".data),
          ("Reviewing analysis for gaps, inconsistencies, and areas needing research".data),
          truncateDetails (cxT4 ++ nlChar ++ cxT5 ++ nlChar)⟩] :=
  C2_two_steps_amended cxA1 cxA2 cxA3 cxB1 cxB2
    ("generate".data) ("critique".data)
    ("🧠 Initial Legal Analysis".data)
    ("Analyzing case facts and identifying key legal issues".data)
    ("🔍 Critical Review".data)
    ("Reviewing analysis for gaps, inconsistencies, and areas needing research".data)
    cxT1 cxT2 cxT3 cxT4 cxT5
    (by decide) (by decide) (by decide) (by decide) (by decide)
    (by decide) (by decide) (by decide) (by decide) (by decide)
    (by decide) (by decide) (by decide) (by decide) (by decide)
    (by decide) (by decide) (by decide) (by decide) (by decide)
    (by decide) (by decide) (by decide) (by decide) (by decide)
    (by decide) (by decide) (by decide) (by decide) (by decide)
    (by decide) (by decide) (by decide)

/-- The error-rendering marker the claim expects the projector to add. -/
def errPfx : Str := "Error: ".data

/-- A pattern no longer than `x` that prefixes `x ++ y` prefixes `x`. -/
theorem prefix_of_prefix_append (pat x y : Str) (hl : pat.length ≤ x.length)
    (h : pat <+: x ++ y) : pat <+: x := by
  rw [List.prefix_iff_eq_take] at h ⊢
  rw [h, List.take_append_eq_append_take]
  simp [Nat.sub_eq_zero_of_le hl, List.take_take]

/-- A short pattern that is not a prefix of `x` is not a prefix of
`x ++ y` either. -/
theorem not_prefix_append (pat x y : Str) (hl : pat.length ≤ x.length)
    (h : ¬ pat <+: x) : ¬ pat <+: x ++ y :=
  fun hp => h (prefix_of_prefix_append pat x y hl hp)

/-- Truncation cannot introduce a short pattern as a prefix. -/
theorem not_prefix_truncate (pat s : Str) (hl : pat.length ≤ 1000)
    (h : ¬ pat <+: s) : ¬ pat <+: truncateDetails s := by
  unfold truncateDetails
  split
  · rename_i hlen
    intro hp
    apply h
    have hple : pat.length ≤ (s.take 1000).length := by
      simp only [List.length_take]
      omega
    exact (prefix_of_prefix_append pat (s.take 1000) ellipsis hple hp).trans
      (List.take_prefix 1000 s)
  · exact h

/-- Invariant: no flushed step's details, and no non-empty accumulator,
starts with the error marker; a non-empty accumulator is at least as
long as the marker. -/
def noErrState (st : PState) : Prop :=
  (∀ s ∈ st.steps, ¬ errPfx <+: s.details) ∧
  (st.accum = [] ∨ (7 ≤ st.accum.length ∧ ¬ errPfx <+: st.accum))

/-- Processing one chunk whose stripped value does not start with the
error marker preserves the invariant. -/
theorem processChunk_noErr (st : PState) (c : Chunk)
    (hc : ¬ errPfx <+: pyStrip c.value) (hinv : noErrState st) :
    noErrState (processChunk st c) := by
  unfold processChunk
  by_cases h1 : c.op = addOp ∧ pathHasKeyword c.path = true
  · rw [if_pos h1]
    by_cases h2 : pyStrip c.value ≠ [] ∧ 20 < (pyStrip c.value).length ∧
        startsBrace (pyStrip c.value) = false
    · rw [if_pos h2]
      dsimp only
      have hlt : 20 < (pyStrip c.value).length := h2.2.1
      have hnewpiece : ¬ errPfx <+: pyStrip c.value ++ nlChar := by
        apply not_prefix_append errPfx (pyStrip c.value) nlChar ?_ hc
        simp [errPfx]
        omega
      have hnewlen : 7 ≤ (pyStrip c.value ++ nlChar).length := by
        simp [nlChar]
        omega
      by_cases h3 : st.currentNode ≠ some (resolveNode c.path) ∧ st.accum ≠ []
      · rw [if_pos h3]
        constructor
        · intro s hs
          simp only [flushStep, List.mem_append, List.mem_singleton] at hs
          rcases hs with hs | hs
          · exact hinv.1 s hs
          · subst hs
            dsimp only
            rcases hinv.2 with he | ⟨_, hnp⟩
            · exact absurd he h3.2
            · exact not_prefix_truncate errPfx st.accum (by simp [errPfx]) hnp
        · right
          constructor
          · simpa [flushStep] using hnewlen
          · simpa [flushStep] using hnewpiece
      · rw [if_neg h3]
        constructor
        · exact hinv.1
        · right
          rcases hinv.2 with he | ⟨hlen7, hnp⟩
          · rw [he]
            simp only [List.nil_append]
            exact ⟨hnewlen, hnewpiece⟩
          · constructor
            · simp only [List.append_assoc, List.length_append]
              omega
            · rw [List.append_assoc]
              exact not_prefix_append errPfx st.accum _ (by simp [errPfx]; omega) hnp
    · rw [if_neg h2]
      exact hinv
  · rw [if_neg h1]
    exact hinv

/-- Folding the projector over marker-free chunks preserves the
invariant. -/
theorem foldl_noErr (chunks : List Chunk) :
    ∀ st : PState, (∀ c ∈ chunks, ¬ errPfx <+: pyStrip c.value) → noErrState st →
    noErrState (chunks.foldl processChunk st) := by
  induction chunks with
  | nil =>
    intro st _ hinv
    exact hinv
  | cons c cs ih =>
    intro st hc hinv
    rw [List.foldl_cons]
    exact ih _ (fun d hd => hc d (List.mem_cons_of_mem c hd))
      (processChunk_noErr st c (hc c (List.mem_cons_self c cs)) hinv)

/-- The fixed default steps never start with the error marker. -/
theorem defaultSteps_noErr : ∀ s ∈ defaultSteps, ¬ errPfx <+: s.details := by
  decide

/-- C4 (amended): the projector absorbs error-valued events without
propagating an exception and without adding an `"Error: "` rendering:
whenever no event's stripped value starts with the marker, no produced
step's details starts with it either — the value text is treated like
any other content. -/
theorem C4_no_error_rendering_amended (chunks : List Chunk)
    (hc : ∀ c ∈ chunks, ¬ errPfx <+: pyStrip c.value) :
    ∀ s ∈ extract_thinking_steps_from_log chunks, ¬ errPfx <+: s.details := by
  unfold extract_thinking_steps_from_log
  split
  · exact defaultSteps_noErr
  · have hinv : noErrState (chunks.foldl processChunk initPState) := by
      apply foldl_noErr chunks initPState hc
      constructor
      · intro s hs
        simp [initPState] at hs
      · left
        rfl
    unfold projectedSteps
    dsimp only
    split
    · rename_i hcond
      intro s hs
      simp only [List.mem_append, List.mem_singleton] at hs
      rcases hs with hs | hs
      · exact hinv.1 s hs
      · subst hs
        dsimp only
        rcases hinv.2 with he | ⟨_, hnp⟩
        · exact absurd he hcond.2
        · exact not_prefix_truncate errPfx _ (by simp [errPfx]) hnp
    · exact hinv.1

/-- Stringified error value of an event carrying an exception object
(Python's `str()` of an exception is its bare message, with no marker). -/
def cErrVal : Str := "Tavily search failed with a network timeout".data

/-- A path with no registry-keyed part: it resolves to the generic
`analyze` node. -/
def cErrPath : Str := "/streamed_output/-".data

/-- A concrete event whose value is an error object. -/
def cErrChunk : Chunk := ⟨addOp, cErrPath, cErrVal⟩

/-- C4 counterexample: a stream containing an event whose value is an
error object produces a step whose details does not contain the
`"Error: "` marker anywhere — the projector never adds that rendering,
so the claim as stated fails at this input. -/
theorem C4_counterexample :
    extract_thinking_steps_from_log [cErrChunk] =
      [⟨1, ("⚖️ Legal Analysis".data), ("Applying legal principles to case facts".data),
        cErrVal ++ nlChar⟩] ∧
    containsSub (cErrVal ++ nlChar) errPfx = false := by
  decide

/-- Witness for the amended C4 at the concrete error-valued stream. -/
theorem C4_no_error_rendering_amended_witness :
    ¬ errPfx <+: (cErrVal ++ nlChar) :=
  C4_no_error_rendering_amended [cErrChunk] (by decide)
    ⟨1, ("⚖️ Legal Analysis".data), ("Applying legal principles to case facts".data),
      cErrVal ++ nlChar⟩ (by decide)

/-- Server-sent events produced by the streaming endpoint (fixed
human-readable messages and timestamps omitted where they carry no
claim-relevant content). -/
inductive SSEEvent where
  | start
  | step_start (step_number : Nat) (step_name description : Str)
  | thinking_update (content : Str)
  | step_complete (step_number : Nat) (step_name description details : Str)
  | complete
  | error (message : Str)
deriving DecidableEq, Repr

/-- Terminal events of the stream protocol. -/
def isTerminal : SSEEvent → Bool
  | .complete => true
  | .error _ => true
  | _ => false

/-- State of the streaming loop: current node, accumulator, counter. -/
structure SState where
  currentNode : Option Str
  accum : Str
  counter : Nat
deriving DecidableEq, Repr

/-- The streaming endpoint's own `node_map` (api.py lines 492-500; some
descriptions differ from the blocking projector's table). -/
def streamNodeMap : List (Str × Str × Str) :=
  [ ("generate".data, ("🧠 Initial Legal Analysis".data,
      "Analyzing case facts and identifying key legal issues".data)),
    ("critique".data, ("🔍 Critical Review".data,
      "Reviewing analysis for gaps and inconsistencies".data)),
    ("websearch".data, ("🔎 Legal Research".data,
      "Searching for relevant laws and precedents".data)),
    ("ReviseAnswer".data, ("✅ Final Synthesis".data,
      "Incorporating research and finalizing opinion".data)),
    ("AnswerQuestion".data, ("📝 Answer Formulation".data,
      "Structuring comprehensive legal analysis".data)),
    ("research".data, ("📚 Research Phase".data,
      "Conducting detailed legal research".data)),
    ("analyze".data, ("⚖️ Legal Analysis".data,
      "Applying legal principles to case facts".data)) ]

/-- Lookup in the streaming registry. -/
def streamNodeMapLookup (n : Str) : Option (Str × Str) :=
  (streamNodeMap.find? (fun p => p.1 == n)).map (·.2)

/-- Streaming metadata with the `(f"Step ...", "Processing...")`
fallback for a node name. -/
def streamMeta (n : Str) : Str × Str :=
  (streamNodeMapLookup n).getD (("Step ".data ++ n), "Processing...".data)

/-- Streaming metadata for the optional current node (mid-stream flush). -/
def streamMidMeta : Option Str → Str × Str
  | some n => streamMeta n
  | none => (("Step ".data ++ fmtOptNode none), "Processing...".data)

/-- Streaming metadata at end of stream:
`node_map.get(current_node, ("Final Analysis", "Completing analysis..."))`. -/
def streamFinalMeta : Option Str → Str × Str
  | some n => (streamNodeMapLookup n).getD
      ("Final Analysis".data, "Completing analysis...".data)
  | none => ("Final Analysis".data, "Completing analysis...".data)

/-- Details truncation of the streaming flush (cap 1200). -/
def truncate1200 (s : Str) : Str :=
  if s.length > 1200 then s.take 1200 ++ ellipsis else s

/-- Content truncation of a thinking update (cap 600). -/
def truncate600 (s : Str) : Str :=
  if s.length > 600 then s.take 600 ++ ellipsis else s

/-- One iteration of the streaming loop (api.py lines 505-581): the
same chunk gate as the blocking projector but without the brace filter;
a node change flushes a `step_complete` for the previous node (when it
had content) and opens a `step_start`; otherwise content accumulates
behind a newline and substantial content emits a `thinking_update`. -/
def stepStreamChunk (st : SState) (c : Chunk) : SState × List SSEEvent :=
  if c.op = addOp ∧ pathHasKeyword c.path = true then
    if pyStrip c.value ≠ [] ∧ 20 < (pyStrip c.value).length then
      let node := resolveNode c.path
      if some node ≠ st.currentNode then
        let doFlush := nodeTruthy st.currentNode = true ∧ st.accum ≠ []
        let flushEvs := if doFlush then
            [SSEEvent.step_complete st.counter (streamMidMeta st.currentNode).1
              (streamMidMeta st.currentNode).2 (truncate1200 st.accum)]
          else []
        let cnt := if doFlush then st.counter + 1 else st.counter
        (⟨some node, pyStrip c.value, cnt⟩,
          flushEvs ++ [SSEEvent.step_start cnt (streamMeta node).1 (streamMeta node).2])
      else
        (⟨st.currentNode, st.accum ++ nlChar ++ pyStrip c.value, st.counter⟩,
          if 50 < (pyStrip c.value).length then
            [SSEEvent.thinking_update (truncate600 (pyStrip c.value))]
          else [])
    else (st, [])
  else (st, [])

/-- Fold step of the streaming loop, accumulating emitted events. -/
def streamFold (acc : SState × List SSEEvent) (c : Chunk) : SState × List SSEEvent :=
  ((stepStreamChunk acc.1 c).1, acc.2 ++ (stepStreamChunk acc.1 c).2)

/-- Run the streaming loop over the whole chunk list. -/
def runStream (chunks : List Chunk) : SState × List SSEEvent :=
  chunks.foldl streamFold (⟨none, [], 1⟩, [])

/-- Final flush of the streaming loop (api.py lines 583-594). -/
def finalStreamEvents (st : SState) : List SSEEvent :=
  if nodeTruthy st.currentNode = true ∧ st.accum ≠ [] then
    [SSEEvent.step_complete st.counter (streamFinalMeta st.currentNode).1
      (streamFinalMeta st.currentNode).2 (truncate1200 st.accum)]
  else []

/-- Behaviour of the raw event source `langraph_app.astream_log`: it
either yields all its chunks and finishes, or yields a prefix of chunks
and then raises with a message (the only exception source in the
generator that the inner per-chunk handler does not absorb). -/
inductive StreamSource where
  | ok (chunks : List Chunk)
  | err (chunks : List Chunk) (msg : Str)
deriving DecidableEq, Repr

/-- The validation message of the endpoints. -/
def minLenMsg : Str := "Case description must be at least 50 characters long".data

/-- Message of the terminal `error` event after a raised exception. -/
def streamErrMsg (m : Str) : Str := "Analysis error: ".data ++ m

/-- The streaming generator `generate_thinking_stream` (api.py lines
482-607): validation first, then `start`, the streamed step events, the
final flush and `complete`; an exception from the event source is
caught by the outer handler, which emits a single `error` event. -/
def generate_thinking_stream (desc : Str) (src : StreamSource) : List SSEEvent :=
  if desc = [] ∨ (pyStrip desc).length < 50 then [SSEEvent.error minLenMsg]
  else
    match src with
    | .ok chunks =>
      SSEEvent.start ::
        ((runStream chunks).2 ++ finalStreamEvents (runStream chunks).1 ++
          [SSEEvent.complete])
    | .err chunks m =>
      SSEEvent.start :: ((runStream chunks).2 ++ [SSEEvent.error (streamErrMsg m)])

/-- The streaming loop body never emits a terminal event. -/
theorem stepStreamChunk_nonterminal (st : SState) (c : Chunk) :
    ∀ e ∈ (stepStreamChunk st c).2, isTerminal e = false := by
  intro e he
  unfold stepStreamChunk at he
  dsimp only at he
  repeat' split at he
  all_goals simp_all [isTerminal]
  rcases he with rfl | rfl <;> rfl

/-- Folding the streaming loop preserves terminal-freeness of the
emitted events. -/
theorem foldStream_nonterminal (chunks : List Chunk) :
    ∀ init : SState × List SSEEvent, (∀ e ∈ init.2, isTerminal e = false) →
    ∀ e ∈ (chunks.foldl streamFold init).2, isTerminal e = false := by
  induction chunks with
  | nil =>
    intro init h e he
    exact h e he
  | cons c cs ih =>
    intro init h e he
    rw [List.foldl_cons] at he
    apply ih (streamFold init c) ?_ e he
    intro d hd
    unfold streamFold at hd
    rcases List.mem_append.mp hd with hd | hd
    · exact h d hd
    · exact stepStreamChunk_nonterminal init.1 c d hd

/-- The whole streamed event prefix is terminal-free. -/
theorem runStream_nonterminal (chunks : List Chunk) :
    ∀ e ∈ (runStream chunks).2, isTerminal e = false :=
  foldStream_nonterminal chunks (⟨none, [], 1⟩, []) (by simp)

/-- The final flush never emits a terminal event. -/
theorem finalStreamEvents_nonterminal (st : SState) :
    ∀ e ∈ finalStreamEvents st, isTerminal e = false := by
  intro e he
  unfold finalStreamEvents at he
  split at he
  · simp at he
    subst he
    rfl
  · simp at he

/-- C7: every event sequence produced by the streaming endpoint ends in
exactly one terminal event (`complete` or `error`, never both), and no
event follows the terminal event. -/
theorem C7_single_terminal_event (desc : Str) (src : StreamSource) :
    ∃ pre t, generate_thinking_stream desc src = pre ++ [t] ∧
      isTerminal t = true ∧ ∀ e ∈ pre, isTerminal e = false := by
  unfold generate_thinking_stream
  split
  · exact ⟨[], SSEEvent.error minLenMsg, rfl, rfl, by simp⟩
  · cases src with
    | ok chunks =>
      refine ⟨SSEEvent.start ::
          ((runStream chunks).2 ++ finalStreamEvents (runStream chunks).1),
        SSEEvent.complete, by simp, rfl, ?_⟩
      intro e he
      rcases List.mem_cons.mp he with rfl | he
      · rfl
      · rcases List.mem_append.mp he with h | h
        · exact runStream_nonterminal chunks e h
        · exact finalStreamEvents_nonterminal _ e h
    | err chunks m =>
      refine ⟨SSEEvent.start :: (runStream chunks).2,
        SSEEvent.error (streamErrMsg m), by simp, rfl, ?_⟩
      intro e he
      rcases List.mem_cons.mp he with rfl | he
      · rfl
      · exact runStream_nonterminal chunks e he

/-- A Python value appearing in a `references` list: a string or some
non-string value (skipped by the extractor's `isinstance` check). -/
inductive PyVal where
  | str (s : Str)
  | nonstr
deriving DecidableEq, Repr

/-- One entry of a message's `tool_calls` list. The `args` dict is
flattened to its two consumed keys: `args.get("search_queries", [])`
and `args.get("references", [])` (`none` models a non-list value for
the latter, skipped by the extractor's `isinstance(refs, list)`). -/
structure ToolCall where
  name : Str
  id : Str
  search_queries : List Str
  references : Option (List PyVal)
deriving DecidableEq, Repr

/-- One message of the conversation state. `tool_calls = none` models a
message without the attribute; `content = none` one without content;
`content = some s` holds `str(message.content)`. -/
structure Message where
  tool_calls : Option (List ToolCall)
  content : Option Str
deriving DecidableEq, Repr

/-- Result recorded for one search query: the search value, or the
inline error dict (its message string). -/
inductive QueryRes where
  | ok (result : Str)
  | err (message : Str)
deriving DecidableEq, Repr

/-- The inline per-query error `{"error": f"Search failed: {str(e)}"}`. -/
def inlineError (e : Str) : QueryRes :=
  .err ("Search failed: ".data ++ e)

/-- Outcome recorded for a query under a given search collaborator
(`tavily_tool.invoke` either returns a value or raises). -/
def resOf (search : Str → Except Str Str) (q : Str) : QueryRes :=
  match search q with
  | .ok r => .ok r
  | .error e => inlineError e

/-- Python dict assignment `d[k] = v`: update in place if the key
exists, else append. -/
def dictInsert (d : List (Str × QueryRes)) (k : Str) (v : QueryRes) :
    List (Str × QueryRes) :=
  if d.any (fun p => p.1 == k) then
    d.map (fun p => if p.1 == k then (k, v) else p)
  else d ++ [(k, v)]

/-- Python dict lookup `d.get(k)`. -/
def lookupD (d : List (Str × QueryRes)) (k : Str) : Option QueryRes :=
  (d.find? (fun p => p.1 == k)).map (·.2)

/-- The `query_results` dict built by the per-query loop of
`execute_tools` (execute_tools.py lines 35-41). -/
def queryResults (search : Str → Except Str Str) (qs : List Str) :
    List (Str × QueryRes) :=
  qs.foldl (fun d q => dictInsert d q (resOf search q)) []

/-- Name test `tool_call["name"] in ["AnswerQuestion", "ReviseAnswer"]`. -/
def isAnswerCall (tc : ToolCall) : Bool :=
  tc.name == "AnswerQuestion".data || tc.name == "ReviseAnswer".data

/-- The `ToolMessage` produced per answered tool call; `json.dumps` of
the results dict is modelled as the dict itself. -/
structure ToolMessage where
  content : List (Str × QueryRes)
  tool_call_id : Str
deriving DecidableEq, Repr

/-- The tool-execution node `execute_tools` (execute_tools.py lines
19-51), parameterised by the search collaborator. `state[-1]` on an
empty state raises, modelled as `none`; a last message without tool
calls returns the empty list. -/
def execute_tools (search : Str → Except Str Str) (state : List Message) :
    Option (List ToolMessage) :=
  match state.getLast? with
  | none => none
  | some last =>
    match last.tool_calls with
    | none => some []
    | some tcs =>
      if tcs = [] then some []
      else some (tcs.filterMap (fun tc =>
        if isAnswerCall tc = true then
          some ⟨queryResults search tc.search_queries, tc.id⟩
        else none))

/-- Every entry of a dict is the recorded outcome of its own key. -/
def goodDict (search : Str → Except Str Str) (d : List (Str × QueryRes)) : Prop :=
  ∀ p ∈ d, p.2 = resOf search p.1

/-- Inserting a key's own outcome preserves dict goodness. -/
theorem dictInsert_good (search : Str → Except Str Str)
    (d : List (Str × QueryRes)) (k : Str) (hd : goodDict search d) :
    goodDict search (dictInsert d k (resOf search k)) := by
  unfold dictInsert
  split
  · intro p hp
    rcases List.mem_map.mp hp with ⟨p0, hp0, hfp⟩
    by_cases hk : p0.1 == k
    · rw [if_pos hk] at hfp
      rw [← hfp]
    · rw [if_neg hk] at hfp
      rw [← hfp]
      exact hd p0 hp0
  · intro p hp
    rcases List.mem_append.mp hp with hp | hp
    · exact hd p hp
    · rw [List.mem_singleton.mp hp]

/-- A lookup in a good dict can only return the key's own outcome. -/
theorem lookupD_good (search : Str → Except Str Str)
    (d : List (Str × QueryRes)) (q : Str) (v : QueryRes)
    (hd : goodDict search d) (h : lookupD d q = some v) :
    v = resOf search q := by
  unfold lookupD at h
  cases hf : d.find? (fun p => p.1 == q) with
  | none => rw [hf] at h; simp at h
  | some p =>
    rw [hf] at h
    simp at h
    have hmem := List.mem_of_find?_eq_some hf
    have hpq := List.find?_some hf
    simp only [beq_iff_eq] at hpq
    rw [← h, hd p hmem, hpq]

/-- Mapping second projections keeps definedness. -/
theorem isSome_map_snd (o : Option (Str × QueryRes)) :
    (o.map (·.2)).isSome = o.isSome := by
  cases o <;> rfl

/-- Inserting a key makes it present. -/
theorem lookupD_dictInsert_self (d : List (Str × QueryRes)) (k : Str) (v : QueryRes) :
    (lookupD (dictInsert d k v) k).isSome = true := by
  unfold dictInsert lookupD
  rw [isSome_map_snd]
  rw [List.find?_isSome]
  split
  · rename_i hany
    rcases List.any_eq_true.mp hany with ⟨p, hp, hpk⟩
    refine ⟨(k, v), List.mem_map.mpr ⟨p, hp, by rw [if_pos hpk]⟩, by simp⟩
  · exact ⟨(k, v), List.mem_append.mpr (Or.inr (List.mem_singleton.mpr rfl)), by simp⟩

/-- Insertion never removes a present key. -/
theorem lookupD_dictInsert_mono (d : List (Str × QueryRes)) (k q : Str) (v : QueryRes)
    (h : (lookupD d q).isSome = true) :
    (lookupD (dictInsert d k v) q).isSome = true := by
  unfold lookupD at h ⊢
  rw [isSome_map_snd, List.find?_isSome] at h
  rw [isSome_map_snd, List.find?_isSome]
  rcases h with ⟨p, hp, hpq⟩
  unfold dictInsert
  split
  · by_cases hk : p.1 == k
    · exact ⟨(k, v), List.mem_map.mpr ⟨p, hp, by rw [if_pos hk]⟩,
        by simp [← eq_of_beq hk, eq_of_beq hpq]⟩
    · exact ⟨p, List.mem_map.mpr ⟨p, hp, by rw [if_neg hk]⟩, hpq⟩
  · exact ⟨p, List.mem_append.mpr (Or.inl hp), hpq⟩

/-- Keys present or still to be processed are present after the loop. -/
theorem foldl_hasKey (search : Str → Except Str Str) (qs : List Str) :
    ∀ (d : List (Str × QueryRes)) (q : Str),
    ((lookupD d q).isSome = true ∨ q ∈ qs) →
    (lookupD (qs.foldl (fun d q => dictInsert d q (resOf search q)) d) q).isSome = true := by
  induction qs with
  | nil =>
    intro d q h
    rcases h with h | h
    · exact h
    · simp at h
  | cons x xs ih =>
    intro d q h
    rw [List.foldl_cons]
    apply ih
    rcases h with h | h
    · exact Or.inl (lookupD_dictInsert_mono d x q (resOf search x) h)
    · rcases List.mem_cons.mp h with rfl | h
      · exact Or.inl (lookupD_dictInsert_self d q (resOf search q))
      · exact Or.inr h

/-- The query loop preserves dict goodness. -/
theorem foldl_good (search : Str → Except Str Str) (qs : List Str) :
    ∀ d : List (Str × QueryRes), goodDict search d →
    goodDict search (qs.foldl (fun d q => dictInsert d q (resOf search q)) d) := by
  induction qs with
  | nil =>
    intro d hd
    exact hd
  | cons x xs ih =>
    intro d hd
    rw [List.foldl_cons]
    exact ih _ (dictInsert_good search d x hd)

/-- Every query of the batch is mapped to its own recorded outcome in
the results dict, regardless of which queries succeeded or failed. -/
theorem lookup_queryResults (search : Str → Except Str Str) (qs : List Str)
    (q : Str) (hq : q ∈ qs) :
    lookupD (queryResults search qs) q = some (resOf search q) := by
  have hsome := foldl_hasKey search qs [] q (Or.inr hq)
  have hgood : goodDict search (queryResults search qs) := by
    apply foldl_good search qs []
    intro p hp
    simp at hp
  unfold queryResults at hsome ⊢
  rcases Option.isSome_iff_exists.mp hsome with ⟨v, hv⟩
  rw [hv, lookupD_good search _ q v hgood hv]

/-- The per-call filterMap is the map over name-filtered calls. -/
theorem filterMap_answer (f : ToolCall → ToolMessage) (tcs : List ToolCall) :
    tcs.filterMap (fun tc => if isAnswerCall tc = true then some (f tc) else none) =
      (tcs.filter (fun tc => isAnswerCall tc)).map f := by
  induction tcs with
  | nil => rfl
  | cons tc tcs ih =>
    by_cases h : isAnswerCall tc = true
    · simp [List.filterMap_cons, List.filter_cons, h, ih]
    · simp [List.filterMap_cons, List.filter_cons, h, ih]

/-- When exactly one tool call of the last message passes the name
filter, `execute_tools` produces exactly its single ToolMessage. -/
theorem execute_tools_single (search : Str → Except Str Str)
    (state : List Message) (m : Message) (tcs : List ToolCall) (tc : ToolCall)
    (hlast : state.getLast? = some m)
    (htcs : m.tool_calls = some tcs)
    (hone : tcs.filter (fun c => isAnswerCall c) = [tc]) :
    execute_tools search state =
      some [⟨queryResults search tc.search_queries, tc.id⟩] := by
  unfold execute_tools
  rw [hlast]
  dsimp only
  rw [htcs]
  dsimp only
  have htne : tcs ≠ [] := by
    intro h
    rw [h] at hone
    simp at hone
  rw [if_neg htne]
  rw [filterMap_answer
    (fun tc => (⟨queryResults search tc.search_queries, tc.id⟩ : ToolMessage)) tcs]
  rw [hone]
  rfl

/-- C6: a message state whose last message carries exactly one
AnswerQuestion/ReviseAnswer tool call yields exactly one ToolMessage,
tagged with the originating call identifier, whose content maps each
search query to its result or inline error, regardless of how many
queries succeeded or failed (the search collaborator is arbitrary). -/
theorem C6_single_tool_message (search : Str → Except Str Str)
    (state : List Message) (m : Message) (tcs : List ToolCall) (tc : ToolCall)
    (hlast : state.getLast? = some m)
    (htcs : m.tool_calls = some tcs)
    (hone : tcs.filter (fun c => isAnswerCall c) = [tc]) :
    execute_tools search state =
      some [⟨queryResults search tc.search_queries, tc.id⟩] ∧
    ∀ q ∈ tc.search_queries,
      lookupD (queryResults search tc.search_queries) q = some (resOf search q) :=
  ⟨execute_tools_single search state m tcs tc hlast htcs hone,
   fun q hq => lookup_queryResults search tc.search_queries q hq⟩

/-- C5: with three queries where the second raises, the single returned
ToolMessage carries successful entries for the first and third queries
and the inline error entry for the second; nothing is raised and the
sibling queries complete. -/
theorem C5_query_failure_isolated (search : Str → Except Str Str)
    (state : List Message) (m : Message) (tcs : List ToolCall) (tc : ToolCall)
    (q1 q2 q3 r1 r3 e : Str)
    (hlast : state.getLast? = some m)
    (htcs : m.tool_calls = some tcs)
    (hone : tcs.filter (fun c => isAnswerCall c) = [tc])
    (hqs : tc.search_queries = [q1, q2, q3])
    (h1 : search q1 = Except.ok r1)
    (h2 : search q2 = Except.error e)
    (h3 : search q3 = Except.ok r3) :
    execute_tools search state =
      some [⟨queryResults search [q1, q2, q3], tc.id⟩] ∧
    lookupD (queryResults search [q1, q2, q3]) q1 = some (QueryRes.ok r1) ∧
    lookupD (queryResults search [q1, q2, q3]) q2 = some (inlineError e) ∧
    lookupD (queryResults search [q1, q2, q3]) q3 = some (QueryRes.ok r3) := by
  refine ⟨?_, ?_, ?_, ?_⟩
  · rw [← hqs]
    exact execute_tools_single search state m tcs tc hlast htcs hone
  · rw [lookup_queryResults search _ q1 (by simp)]
    simp [resOf, h1]
  · rw [lookup_queryResults search _ q2 (by simp)]
    simp [resOf, h2]
  · rw [lookup_queryResults search _ q3 (by simp)]
    simp [resOf, h3]

/-- C9: a last message without tool calls (attribute absent or empty
list) produces the empty list, with no ToolMessage and no error. -/
theorem C9_empty_tool_calls (search : Str → Except Str Str)
    (state : List Message) (m : Message)
    (hlast : state.getLast? = some m)
    (h : m.tool_calls = none ∨ m.tool_calls = some []) :
    execute_tools search state = some [] := by
  rcases h with h | h <;> simp [execute_tools, hlast, h]

/-- Concrete search collaborator: one designated query raises, all
others return a fixed results payload. -/
def wSearch : Str → Except Str Str := fun q =>
  if q = ("failing query".data) then Except.error ("socket timeout".data)
  else Except.ok ("ranked results".data)

/-- First concrete query. -/
def wQ1 : Str := "recent BNS theft precedents".data
/-- Second concrete query (the one that raises). -/
def wQ2 : Str := "failing query".data
/-- Third concrete query. -/
def wQ3 : Str := "consumer protection rulings".data

/-- Concrete AnswerQuestion tool call with three queries. -/
def wTc : ToolCall := ⟨"AnswerQuestion".data, "call-1".data, [wQ1, wQ2, wQ3], none⟩

/-- Concrete message state whose last message carries `wTc`. -/
def wState : List Message := [⟨some [wTc], none⟩]

/-- Witness for C5 at the concrete three-query state. -/
theorem C5_query_failure_isolated_witness :
    execute_tools wSearch wState =
      some [⟨queryResults wSearch [wQ1, wQ2, wQ3], ("call-1".data)⟩] ∧
    lookupD (queryResults wSearch [wQ1, wQ2, wQ3]) wQ1 =
      some (QueryRes.ok ("ranked results".data)) ∧
    lookupD (queryResults wSearch [wQ1, wQ2, wQ3]) wQ2 =
      some (inlineError ("socket timeout".data)) ∧
    lookupD (queryResults wSearch [wQ1, wQ2, wQ3]) wQ3 =
      some (QueryRes.ok ("ranked results".data)) :=
  C5_query_failure_isolated wSearch wState ⟨some [wTc], none⟩ [wTc] wTc
    wQ1 wQ2 wQ3 ("ranked results".data) ("ranked results".data) ("socket timeout".data)
    (by decide) (by decide) (by decide) (by decide)
    rfl rfl rfl

/-- Concrete state for the C6 witness (a ReviseAnswer call with two
queries, one failing). -/
def w6Tc : ToolCall := ⟨"ReviseAnswer".data, "call-2".data, [wQ1, wQ2], none⟩

/-- Concrete message state whose last message carries `w6Tc`. -/
def w6State : List Message := [⟨some [w6Tc], none⟩]

/-- Witness for C6 at the concrete state. -/
theorem C6_single_tool_message_witness :
    execute_tools wSearch w6State =
      some [⟨queryResults wSearch [wQ1, wQ2], ("call-2".data)⟩] ∧
    lookupD (queryResults wSearch [wQ1, wQ2]) wQ1 = some (resOf wSearch wQ1) :=
  ⟨(C6_single_tool_message wSearch w6State ⟨some [w6Tc], none⟩ [w6Tc] w6Tc
      (by decide) (by decide) (by decide)).1,
   (C6_single_tool_message wSearch w6State ⟨some [w6Tc], none⟩ [w6Tc] w6Tc
      (by decide) (by decide) (by decide)).2 wQ1 (by decide)⟩

/-- Concrete state whose last message has no `tool_calls` attribute. -/
def w9State : List Message := [⟨none, some ("plain assistant text".data)⟩]

/-- Witness for C9 at the concrete state. -/
theorem C9_empty_tool_calls_witness :
    execute_tools wSearch w9State = some [] :=
  C9_empty_tool_calls wSearch w9State ⟨none, some ("plain assistant text".data)⟩
    (by decide) (Or.inl (by decide))

/-- Characters allowed in a matched URL body by the pattern
`https?://[^\s<>"]+` (whitespace, angle brackets and double quotes are
excluded). -/
def urlChar (c : Char) : Bool :=
  !(isPySpace c || c == '<' || c == '>' || c == '"')

/-- Match the literal scheme `https://` or `http://` at the head of the
input, returning the consumed characters and the remainder. -/
def matchScheme : Str → Option (Str × Str)
  | 'h' :: 't' :: 't' :: 'p' :: 's' :: ':' :: '/' :: '/' :: rest =>
    some (['h', 't', 't', 'p', 's', ':', '/', '/'], rest)
  | 'h' :: 't' :: 't' :: 'p' :: ':' :: '/' :: '/' :: rest =>
    some (['h', 't', 't', 'p', ':', '/', '/'], rest)
  | _ => none

/-- Match one URL at the current position: the scheme followed by a
non-empty maximal run of URL characters. -/
def matchUrlAt (l : Str) : Option (Str × Str) :=
  match matchScheme l with
  | none => none
  | some (sch, rest) =>
    if rest.takeWhile urlChar = [] then none
    else some (sch ++ rest.takeWhile urlChar, rest.dropWhile urlChar)

/-- Fueled scanner for all non-overlapping URL matches, advancing one
character when no match starts at the current position (the fuel is the
input length, which bounds the number of steps since every step consumes
at least one character). -/
def findUrlsAux : Nat → Str → List Str
  | 0, _ => []
  | _ + 1, [] => []
  | fuel + 1, c :: cs =>
    match matchUrlAt (c :: cs) with
    | some (url, rest) => url :: findUrlsAux fuel rest
    | none => findUrlsAux fuel cs

/-- All URL-shaped substrings of a text, in scan order (model of
`re.findall(r'https?://[^\s<>"]+', content)`). -/
def findUrls (s : Str) : List Str := findUrlsAux s.length s

/-- The scheme-prefix filter of the first pass (`ref.startswith('http')`). -/
def httpPrefix : Str := "http".data

/-- Pass 1 of `extract_references` (api.py lines 99-104): the reference
strings of the last message's first AnswerQuestion/ReviseAnswer tool
call that are non-empty strings starting with the HTTP prefix. -/
def refsPass1 (response : List Message) : List Str :=
  match response.getLast? with
  | none => []
  | some m =>
    match m.tool_calls with
    | none => []
    | some [] => []
    | some (tc :: _) =>
      if isAnswerCall tc = true then
        match tc.references with
        | none => []
        | some refs =>
          refs.filterMap (fun r =>
            match r with
            | .str s => if s ≠ [] ∧ httpPrefix.isPrefixOf s = true then some s else none
            | .nonstr => none)
      else []

/-- Pass 2 of `extract_references` (api.py lines 107-113): URL pattern
matches over the stringified content of every message. -/
def refsPass2 (response : List Message) : List Str :=
  response.flatMap (fun m =>
    match m.content with
    | none => []
    | some s => findUrls s)

/-- The reference extractor `extract_references` (api.py lines 95-118):
the two passes concatenated, then `list(set(...))` modelled as
duplicate removal (the code guarantees only set semantics, no order). -/
def extract_references (response : List Message) : List Str :=
  (refsPass1 response ++ refsPass2 response).dedup

/-- C8: the extractor returns the de-duplicated union of the final tool
call's HTTP-prefixed reference strings and the URL-shaped substrings of
every message's content: no duplicates, membership is exactly the union
of the two passes, and the result is a deterministic function of the
input (two calls on identical input give the same set). -/
theorem C8_dedup_union (response : List Message) :
    (extract_references response).Nodup ∧
    (∀ s : Str, s ∈ extract_references response ↔
      (s ∈ refsPass1 response ∨ s ∈ refsPass2 response)) ∧
    extract_references response = extract_references response := by
  refine ⟨List.nodup_dedup _, ?_, rfl⟩
  intro s
  rw [extract_references, List.mem_dedup, List.mem_append]

/-- The `LinkSummary` Pydantic model. -/
structure LinkSummary where
  url : Str
  title : Str
  summary : Str
  status : Str
deriving DecidableEq, Repr

/-- The `LegalCaseRequest` Pydantic model. -/
structure LegalCaseRequest where
  case_description : Str
  user_id : Option Str
deriving DecidableEq, Repr

/-- The `UnifiedAnalysisResponse` Pydantic model (`analysis_date` and
`processing_time` are wall-clock valued and omitted). -/
structure UnifiedAnalysisResponse where
  case_name : Str
  thinking_steps : List ThinkingStep
  final_answer : Str
  formatted_analysis : Str
  references : List Str
  link_summaries : List LinkSummary
  total_steps : Nat
deriving DecidableEq, Repr

/-- Outcome of a blocking endpoint call: a response, or an
`HTTPException` with status and detail. -/
inductive EndpointResult where
  | ok (resp : UnifiedAnalysisResponse)
  | httpError (status : Nat) (detail : Str)
deriving DecidableEq, Repr

/-- The POST `/analyze-case` endpoint (api.py lines 442-458),
parameterised by the analysis pipeline `_run_analysis` (which performs
all external calls); a falsy or too-short description is rejected with
a 400 before the pipeline runs, and a pipeline exception becomes a 500. -/
def analyze_legal_case_post (runAnalysis : Str → Except Str UnifiedAnalysisResponse)
    (request : LegalCaseRequest) : EndpointResult :=
  if request.case_description = [] ∨ (pyStrip request.case_description).length < 50 then
    .httpError 400 minLenMsg
  else
    match runAnalysis request.case_description with
    | .ok r => .ok r
    | .error e => .httpError 500 (("Analysis failed: ".data) ++ e)

/-- The GET `/analyze-case` endpoint (api.py lines 460-476), with the
same validation gate. -/
def analyze_legal_case_get (runAnalysis : Str → Except Str UnifiedAnalysisResponse)
    (case_description : Str) : EndpointResult :=
  if case_description = [] ∨ (pyStrip case_description).length < 50 then
    .httpError 400 minLenMsg
  else
    match runAnalysis case_description with
    | .ok r => .ok r
    | .error e => .httpError 500 (("Analysis failed: ".data) ++ e)

/-- C1: a case description shorter than 50 characters after stripping
is rejected with the 400 validation error by both blocking endpoints
and with a single `error` event by the streaming endpoint, whatever the
analysis pipeline and event source do — no external call can influence
(or be required for) the outcome. -/
theorem C1_validation_before_external
    (runA runB : Str → Except Str UnifiedAnalysisResponse)
    (req : LegalCaseRequest) (src : StreamSource)
    (h : (pyStrip req.case_description).length < 50) :
    analyze_legal_case_post runA req = .httpError 400 minLenMsg ∧
    analyze_legal_case_get runB req.case_description = .httpError 400 minLenMsg ∧
    generate_thinking_stream req.case_description src = [SSEEvent.error minLenMsg] := by
  refine ⟨?_, ?_, ?_⟩
  · unfold analyze_legal_case_post
    rw [if_pos (Or.inr h)]
  · unfold analyze_legal_case_get
    rw [if_pos (Or.inr h)]
  · unfold generate_thinking_stream
    rw [if_pos (Or.inr h)]

/-- Concrete short request for the C1 witness. -/
def wShortReq : LegalCaseRequest := ⟨("My landlord kept my deposit.".data), none⟩

/-- Concrete analysis pipeline that would fail if ever consulted. -/
def wRun : Str → Except Str UnifiedAnalysisResponse :=
  fun _ => Except.error ("must never be called".data)

/-- Witness for C1 at a concrete 28-character description. -/
theorem C1_validation_before_external_witness :
    analyze_legal_case_post wRun wShortReq = .httpError 400 minLenMsg ∧
    analyze_legal_case_get wRun wShortReq.case_description = .httpError 400 minLenMsg ∧
    generate_thinking_stream wShortReq.case_description (StreamSource.ok []) =
      [SSEEvent.error minLenMsg] :=
  C1_validation_before_external wRun wRun wShortReq (StreamSource.ok []) (by decide)

/-- The link-summary stage of `_run_analysis` (api.py lines 390-395):
fetch summaries for the first five references only (`references[:5]`),
keeping the results that are summaries (`asyncio.gather` with
`return_exceptions=True` followed by the `isinstance` filter; the fetch
collaborator returns `none` when it raised). -/
def link_summaries_of (fetch : Str → Option LinkSummary) (references : List Str) :
    List LinkSummary :=
  (references.take 5).filterMap fetch

/-- Assembly of the successful analysis response (api.py lines 402-412):
the references field carries all extracted references while the
link-summaries field is built from the first five only. -/
def mkAnalysisResult (case_name : Str) (steps : List ThinkingStep)
    (final_answer formatted_analysis : Str) (references : List Str)
    (fetch : Str → Option LinkSummary) : UnifiedAnalysisResponse :=
  { case_name := case_name
    thinking_steps := steps
    final_answer := final_answer
    formatted_analysis := formatted_analysis
    references := references
    link_summaries := link_summaries_of fetch references
    total_steps := steps.length }

/-- C10: every assembled response has at most five link summaries, each
obtained by fetching one of the first five entries of the response's
own references field — even when the references field is longer. -/
theorem C10_link_summaries_capped (case_name : Str) (steps : List ThinkingStep)
    (final_answer formatted_analysis : Str) (references : List Str)
    (fetch : Str → Option LinkSummary) :
    (mkAnalysisResult case_name steps final_answer formatted_analysis references
        fetch).link_summaries.length ≤ 5 ∧
    ∀ s ∈ (mkAnalysisResult case_name steps final_answer formatted_analysis references
        fetch).link_summaries,
      ∃ r ∈ (mkAnalysisResult case_name steps final_answer formatted_analysis references
        fetch).references.take 5, fetch r = some s := by
  constructor
  · calc (link_summaries_of fetch references).length
        ≤ (references.take 5).length := List.length_filterMap_le _ _
      _ ≤ 5 := List.length_take_le 5 references
  · intro s hs
    rcases List.mem_filterMap.mp hs with ⟨r, hr, hfr⟩
    exact ⟨r, hr, hfr⟩
